import Mathlib

/-!
Verification of the Pong simulation core (src/main.py).

The Python source is shallowly embedded: pygame rectangles become records of
integers, float arithmetic becomes exact rational (or, where trigonometry is
involved, real) arithmetic, and the truncating Python `int(...)` conversion
becomes `pyInt`.  Random draws (serve angle, AI jitter) are passed to the
embedded functions as explicit parameters constrained to the ranges the
source draws them from.
-/

namespace Pong

/-! ## Constants (src/main.py lines 8-28) -/

def WIDTH : ℤ := 800
def HEIGHT : ℤ := 600
def FPS : ℚ := 60
def PADDLE_WIDTH : ℤ := 12
def PADDLE_HEIGHT : ℤ := 100
def PADDLE_MARGIN : ℤ := 30
def BALL_SIZE : ℤ := 14
def BALL_SPEED_START : ℚ := 5
def BALL_SPEED_INCREMENT : ℚ := 1/4
def BALL_SPEED_MAX : ℚ := 12
def SCORE_TO_WIN : ℕ := 11
def COUNTDOWN_TIME : ℤ := 1200

/-! ## Primitives -/

/-- The Python `int(x)` conversion on a float: truncation toward zero. -/
def pyInt (q : ℚ) : ℤ := if 0 ≤ q then ⌊q⌋ else ⌈q⌉

/-- Playfield dimensions (`Bounds` dataclass, lines 31-38). -/
structure Bounds where
  width : ℤ
  height : ℤ
deriving DecidableEq

/-- An axis-aligned `pygame.Rect`: integer top-left corner plus extent. -/
structure Rect where
  x : ℤ
  y : ℤ
  w : ℤ
  h : ℤ
deriving DecidableEq

def Rect.right (r : Rect) : ℤ := r.x + r.w

def Rect.bottom (r : Rect) : ℤ := r.y + r.h

/-- `pygame.Rect.centery` (`y + h // 2`; all heights in the game are positive,
so the rounding convention of the division is immaterial). -/
def Rect.centery (r : Rect) : ℤ := r.y + r.h / 2

/-- `pygame.Rect.colliderect`: strict overlap on both axes (touching edges do
not collide).  Faithful for the positive-extent rectangles the game uses. -/
def collide (a b : Rect) : Prop :=
  a.x < b.x + b.w ∧ b.x < a.x + a.w ∧ a.y < b.y + b.h ∧ b.y < a.y + a.h

instance (a b : Rect) : Decidable (collide a b) := by
  unfold collide; infer_instance

/-! ## Paddle (src/main.py lines 41-54) -/

/-- The state of `Paddle` that `Paddle.update` touches: vertical position,
height and current velocity (the x extent is fixed and irrelevant here). -/
structure PaddleS where
  y : ℤ
  h : ℤ
  velocity : ℚ
deriving DecidableEq

/-- `Paddle.update` (lines 47-54): move by `velocity * dt` truncated to whole
pixels, then clamp the top to `0` and the bottom to `bounds.height` — two
sequential `if`s, exactly as in the source. -/
def paddleUpdate (dt : ℚ) (bounds : Bounds) (p : PaddleS) : PaddleS :=
  let y1 := p.y + pyInt (p.velocity * dt)
  let y2 := if y1 < 0 then 0 else y1
  let y3 := if bounds.height < y2 + p.h then bounds.height - p.h else y2
  { p with y := y3 }

/-- Claim C7: for every paddle position, every velocity and every elapsed
time, after `Paddle.update` the top edge of the paddle is `≥ 0` and its bottom
edge is `≤ bounds.height`.  (This needs the paddle to fit in the playfield,
`0 ≤ p.h ≤ bounds.height`, which holds for the 100-pixel paddles of the game in
the 600-pixel-high window.) -/
theorem paddle_clamped_in_bounds (dt : ℚ) (bounds : Bounds) (p : PaddleS)
    (h1 : p.h ≤ bounds.height) :
    0 ≤ (paddleUpdate dt bounds p).y ∧
      (paddleUpdate dt bounds p).y + (paddleUpdate dt bounds p).h ≤ bounds.height := by
  unfold paddleUpdate
  dsimp only
  set k : ℤ := pyInt (p.velocity * dt) with hk
  split_ifs <;> constructor <;> omega

/-- Witness for C7 at a concrete state: paddle at `y = 550` with height 100
moving down at speed 6 for one frame inside the 800×600 playfield. -/
theorem paddle_clamped_in_bounds_witness :
    (100 : ℤ) ≤ 600 ∧
      (0 ≤ (paddleUpdate 1 ⟨800, 600⟩ ⟨550, 100, 6⟩).y ∧
        (paddleUpdate 1 ⟨800, 600⟩ ⟨550, 100, 6⟩).y +
          (paddleUpdate 1 ⟨800, 600⟩ ⟨550, 100, 6⟩).h ≤ 600) :=
  ⟨by decide, paddle_clamped_in_bounds 1 ⟨800, 600⟩ ⟨550, 100, 6⟩ (by decide)⟩

/-! ## Ball (src/main.py lines 122-205)

The velocity produced by a paddle bounce or a serve is
`Vector2(d, 0).rotate(angle).normalize() * speed`, i.e. the unit vector at
`angle` degrees scaled by `speed`.  The rational state machine below receives
the rotation `angle ↦ Vector2(1, 0).rotate(angle)` as an explicit function
parameter `rot`; the real-valued instantiation with genuine cosine/sine (and
the explicit normalization step) is given further down and is used for the
claims that concern the actual direction and magnitude of the velocity. -/

/-- The state of `Ball`: position and size of its square `pygame.Rect`,
velocity components, scalar speed, and the serve-cooldown timer (ms). -/
structure Ball where
  rectX : ℤ
  rectY : ℤ
  size : ℤ
  velX : ℚ
  velY : ℚ
  speed : ℚ
  serveCooldown : ℤ
deriving DecidableEq

/-- The current `pygame.Rect` of the ball. -/
def Ball.rect (b : Ball) : Rect := ⟨b.rectX, b.rectY, b.size, b.size⟩

/-- `min(BALL_SPEED_MAX, speed + BALL_SPEED_INCREMENT)` — the speed bump
applied on each scoring event (line 175) and each paddle hit (line 204). -/
def speedUp (s : ℚ) : ℚ := min BALL_SPEED_MAX (s + BALL_SPEED_INCREMENT)

/-- The bounce angle in degrees (lines 193-199): normalized hit offset
`(ball_centery - paddle_centery) / (paddle_height / 2)` clamped to
`[-1, 1]`, then scaled by 60. -/
def bounceAngleDeg {α : Type} [LinearOrderedField α] (ballCY padCY padH : α) : α :=
  let offset := ballCY - padCY
  let norm := offset / (padH / 2)
  let clamped := max (-1) (min 1 norm)
  clamped * 60

/-- `Ball._bounce_off_paddle` (lines 186-205): reposition flush against the
facing edge of the paddle, compute the bounce angle from the hit offset, bump the
speed, and set the velocity to the rotated unit vector (`rot`) scaled by the
new speed. -/
def bounceOffPaddle (rot : ℚ → ℚ × ℚ) (p : Rect) (b : Ball) : Ball :=
  let b1 := if b.velX < 0 then { b with rectX := p.right }
            else { b with rectX := p.x - b.size }
  let angle := bounceAngleDeg ((b1.rect.centery : ℚ)) ((p.centery : ℚ)) ((p.h : ℚ))
  let direction : ℚ := if 0 < b1.velX then 1 else -1
  let d := rot angle
  let newSpeed := speedUp b1.speed
  { b1 with speed := newSpeed,
            velX := direction * d.1 * newSpeed,
            velY := direction * d.2 * newSpeed }

/-- Lines 152-155: advance the position by `velocity * dt`, where
`dt = dt_ms / (1000 / FPS)` and each component is truncated to whole pixels
by the integer coordinates of `pygame.Rect`. -/
def ballMove (dtMs : ℚ) (b : Ball) : Ball :=
  let dt := dtMs / (1000 / FPS)
  { b with rectX := b.rectX + pyInt (b.velX * dt),
           rectY := b.rectY + pyInt (b.velY * dt) }

/-- Lines 157-163: top/bottom wall collision — clamp to the wall line and
invert the vertical velocity component (`if` / `elif` in the source). -/
def wallBounce (bounds : Bounds) (b : Ball) : Ball :=
  if b.rectY ≤ 0 then { b with rectY := 0, velY := -b.velY }
  else if bounds.height ≤ b.rectY + b.size then
    { b with rectY := bounds.height - b.size, velY := -b.velY }
  else b

/-- Lines 166-171: scoring check — `some 1` (right scores) when the right
edge of the ball is fully past the left boundary, `some 0` (left scores)
when its left edge is fully past the right boundary. -/
def scoreCheck (bounds : Bounds) (b : Ball) : Option ℕ :=
  if b.rectX + b.size < 0 then some 1
  else if bounds.width < b.rectX then some 0
  else none

/-- Lines 178-182: paddle collision, checked only when the ball moves toward
the respective paddle and the rectangles overlap. -/
def paddleCollide (rot : ℚ → ℚ × ℚ) (leftP rightP : Rect) (b : Ball) : Ball :=
  if collide b.rect leftP ∧ b.velX < 0 then bounceOffPaddle rot leftP b
  else if collide b.rect rightP ∧ 0 < b.velX then bounceOffPaddle rot rightP b
  else b

/-- `Ball.update` (lines 144-184).  Returns the updated ball and the optional
scorer (`some 0` = left scores, `some 1` = right scores).  While serving
(`serve_cooldown > 0`) it only decrements the cooldown; otherwise it moves
the ball, reflects off the top/bottom walls, checks scoring (bumping the
speed and returning early on a score), and finally checks paddle
collisions. -/
def ballUpdate (rot : ℚ → ℚ × ℚ) (dtMs : ℚ) (bounds : Bounds)
    (leftP rightP : Rect) (b : Ball) : Ball × Option ℕ :=
  if 0 < b.serveCooldown then
    ({ b with serveCooldown := b.serveCooldown - pyInt dtMs }, none)
  else
    let b2 := wallBounce bounds (ballMove dtMs b)
    match scoreCheck bounds b2 with
    | some s => ({ b2 with speed := speedUp b2.speed }, some s)
    | none => (paddleCollide rot leftP rightP b2, none)

/-- `Ball.reset` (lines 130-142): recenter the ball, rotate `(1, 0)` by the
drawn serve angle, optionally force the horizontal sign to match which side
must receive the serve, scale by the current speed, and re-arm the
serve-cooldown timer.  The random draw is the `angle` parameter; `rot` is the
unit-circle rotation, so the `normalize()` of the source is the identity here (the
real-valued model below carries it explicitly). -/
def resetBall (rot : ℚ → ℚ × ℚ) (angle : ℚ) (toLeft : Option Bool)
    (cx cy : ℤ) (b : Ball) : Ball :=
  let d0 := rot angle
  let d := match toLeft with
           | some true => (-(|d0.1|), d0.2)
           | some false => (|d0.1|, d0.2)
           | none => d0
  { b with rectX := cx - b.size / 2, rectY := cy - b.size / 2,
           velX := d.1 * b.speed, velY := d.2 * b.speed,
           serveCooldown := COUNTDOWN_TIME }

/-- `random.choice([random.uniform(-25, 25), random.uniform(155, 205)])`
(lines 133-134): the two uniform draws are `a1`, `a2` and the choice is
`pick`. -/
def serveAngle (a1 a2 : ℚ) (pick : Bool) : ℚ := if pick then a1 else a2

/-- `to_left=(scored == 1)` in `Game.update` (line 272): serve toward the
side that just conceded the point. -/
def serveToLeft (scored : ℕ) : Bool := scored == 1

/-- The restart handler (line 325) sets `self.ball.speed = BALL_SPEED_START`. -/
def restartSpeed : ℚ := BALL_SPEED_START

/-- A sample rotation function for concrete evaluations: the rotation of
`(1, 0)` by 0 degrees (identity direction).  The paths exercised by the
witnesses below never consult the rotation. -/
def rotSample : ℚ → ℚ × ℚ := fun _ => (1, 0)

/-- Claim C8: while serving (`serve_cooldown > 0`), `Ball.update` only
decrements the cooldown by the (truncated) elapsed time and returns no
scorer: position, velocity and scalar speed are untouched and no wall or
paddle collision processing occurs.  For a whole-millisecond elapsed time
(the values `pygame.Clock.tick` actually produces) the decrement equals the
elapsed time exactly. -/
theorem serving_tick_only_decrements_cooldown (rot : ℚ → ℚ × ℚ) (dtMs : ℚ)
    (bounds : Bounds) (leftP rightP : Rect) (b : Ball)
    (h : 0 < b.serveCooldown) :
    ballUpdate rot dtMs bounds leftP rightP b =
      ({ b with serveCooldown := b.serveCooldown - pyInt dtMs }, none) ∧
    (∀ n : ℤ, dtMs = (n : ℚ) → pyInt dtMs = n) := by
  constructor
  · unfold ballUpdate
    rw [if_pos h]
  · rintro n rfl
    unfold pyInt
    split_ifs <;> simp

/-- Witness for C8: a freshly served ball (cooldown 1200 ms) ticked for
16 ms keeps its position, velocity and speed, and its cooldown drops to
1184 ms. -/
theorem serving_tick_only_decrements_cooldown_witness :
    (0 : ℤ) < 1200 ∧
      (ballUpdate rotSample 16 ⟨800, 600⟩ ⟨30, 250, 12, 100⟩ ⟨758, 250, 12, 100⟩
          ⟨400, 300, 14, 5, 0, 5, 1200⟩ =
        ({ rectX := 400, rectY := 300, size := 14, velX := 5, velY := 0,
           speed := 5, serveCooldown := 1200 - pyInt 16 }, none) ∧
       (∀ n : ℤ, (16 : ℚ) = (n : ℚ) → pyInt 16 = n)) :=
  ⟨by decide,
    serving_tick_only_decrements_cooldown rotSample 16 ⟨800, 600⟩
      ⟨30, 250, 12, 100⟩ ⟨758, 250, 12, 100⟩
      ⟨400, 300, 14, 5, 0, 5, 1200⟩ (by decide)⟩

/-- Claim C10: with a sub-millisecond elapsed time `0 < dt_ms < 1`,
`int(dt_ms)` truncates to 0, so a serving tick leaves the ball state
(including the cooldown) exactly unchanged; iterating such ticks keeps the
ball in the Serving state forever. -/
theorem submillisecond_serving_persists (rot : ℚ → ℚ × ℚ) (dtMs : ℚ)
    (bounds : Bounds) (leftP rightP : Rect) (b : Ball)
    (hcd : 0 < b.serveCooldown) (h0 : 0 < dtMs) (h1 : dtMs < 1) :
    ballUpdate rot dtMs bounds leftP rightP b = (b, none) ∧
    ∀ n : ℕ,
      (fun s => (ballUpdate rot dtMs bounds leftP rightP s).1)^[n] b = b := by
  have hz : pyInt dtMs = 0 := by
    unfold pyInt
    rw [if_pos h0.le]
    exact Int.floor_eq_zero_iff.mpr ⟨h0.le, h1⟩
  have hstep : ballUpdate rot dtMs bounds leftP rightP b = (b, none) := by
    unfold ballUpdate
    rw [if_pos hcd, hz]
    simp
  refine ⟨hstep, fun n => Function.iterate_fixed ?_ n⟩
  rw [hstep]

/-- Witness for C10: ticking a serving ball with `dt_ms = 1/2` leaves it
exactly unchanged. -/
theorem submillisecond_serving_persists_witness :
    ((0 : ℤ) < 1200 ∧ (0 : ℚ) < 1/2 ∧ (1/2 : ℚ) < 1) ∧
      ballUpdate rotSample (1/2) ⟨800, 600⟩ ⟨30, 250, 12, 100⟩
          ⟨758, 250, 12, 100⟩ ⟨400, 300, 14, 5, 0, 5, 1200⟩ =
        (⟨400, 300, 14, 5, 0, 5, 1200⟩, none) :=
  ⟨⟨by decide, by norm_num, by norm_num⟩,
    (submillisecond_serving_persists rotSample (1/2) ⟨800, 600⟩
      ⟨30, 250, 12, 100⟩ ⟨758, 250, 12, 100⟩
      ⟨400, 300, 14, 5, 0, 5, 1200⟩ (by decide) (by norm_num) (by norm_num)).1⟩

/-! ## Speed monotonicity (claim C4) -/

lemma speedUp_le_max (s : ℚ) : speedUp s ≤ BALL_SPEED_MAX := min_le_left _ _

lemma le_speedUp (s : ℚ) (hs : s ≤ BALL_SPEED_MAX) : s ≤ speedUp s :=
  le_min hs (le_add_of_nonneg_right (by norm_num [BALL_SPEED_INCREMENT]))

lemma bounceOffPaddle_speed (rot : ℚ → ℚ × ℚ) (p : Rect) (b : Ball) :
    (bounceOffPaddle rot p b).speed = speedUp b.speed := by
  unfold bounceOffPaddle
  dsimp only
  split_ifs <;> rfl

lemma wallBounce_speed (bounds : Bounds) (b : Ball) :
    (wallBounce bounds b).speed = b.speed := by
  unfold wallBounce
  split_ifs <;> rfl

lemma paddleCollide_speed (rot : ℚ → ℚ × ℚ) (leftP rightP : Rect) (b : Ball) :
    (paddleCollide rot leftP rightP b).speed = b.speed ∨
      (paddleCollide rot leftP rightP b).speed = speedUp b.speed := by
  unfold paddleCollide
  split_ifs with h1 h2
  · exact Or.inr (bounceOffPaddle_speed rot leftP b)
  · exact Or.inr (bounceOffPaddle_speed rot rightP b)
  · exact Or.inl rfl

lemma ballUpdate_speed (rot : ℚ → ℚ × ℚ) (dtMs : ℚ) (bounds : Bounds)
    (leftP rightP : Rect) (b : Ball) :
    (ballUpdate rot dtMs bounds leftP rightP b).1.speed = b.speed ∨
      (ballUpdate rot dtMs bounds leftP rightP b).1.speed = speedUp b.speed := by
  unfold ballUpdate
  split_ifs with hcd
  · exact Or.inl rfl
  · dsimp only
    have hsp : (wallBounce bounds (ballMove dtMs b)).speed = b.speed := by
      rw [wallBounce_speed]; rfl
    rcases hsc : scoreCheck bounds (wallBounce bounds (ballMove dtMs b)) with _ | s
    · dsimp only
      rcases paddleCollide_speed rot leftP rightP (wallBounce bounds (ballMove dtMs b))
        with h | h
      · exact Or.inl (by rw [h, hsp])
      · exact Or.inr (by rw [h, hsp])
    · dsimp only
      exact Or.inr (by rw [hsp])

/-- Claim C4: the scalar speed of the ball never decreases during an update and
never exceeds `BALL_SPEED_MAX` (given it starts below the cap, as it always
does from `BALL_SPEED_START = 5`): a scoring event or paddle hit applies
`speedUp`, which raises the speed by the fixed increment capped at the
maximum; `Ball.reset` (serving) keeps the speed; only the explicit restart
sets it back to `BALL_SPEED_START`. -/
theorem ball_speed_monotone_capped (rot : ℚ → ℚ × ℚ) (dtMs : ℚ)
    (bounds : Bounds) (leftP rightP : Rect) (b : Ball)
    (angle : ℚ) (toLeft : Option Bool) (cx cy : ℤ) (s : ℚ)
    (hs : s ≤ BALL_SPEED_MAX) (hb : b.speed ≤ BALL_SPEED_MAX) :
    (s ≤ speedUp s ∧ speedUp s ≤ BALL_SPEED_MAX) ∧
    (b.speed ≤ (ballUpdate rot dtMs bounds leftP rightP b).1.speed ∧
      (ballUpdate rot dtMs bounds leftP rightP b).1.speed ≤ BALL_SPEED_MAX) ∧
    (resetBall rot angle toLeft cx cy b).speed = b.speed ∧
    restartSpeed = BALL_SPEED_START := by
  refine ⟨⟨le_speedUp s hs, speedUp_le_max s⟩, ?_, rfl, rfl⟩
  rcases ballUpdate_speed rot dtMs bounds leftP rightP b with h | h <;> rw [h]
  · exact ⟨le_refl _, hb⟩
  · exact ⟨le_speedUp _ hb, speedUp_le_max _⟩

/-- Witness for C4: a ball crossing the right boundary at speed 5 comes out
of the update with speed `5.25 = speedUp 5`, which lies between the old
speed and the cap. -/
theorem ball_speed_monotone_capped_witness :
    ((5 : ℚ) ≤ 12 ∧ (5 : ℚ) ≤ BALL_SPEED_MAX) ∧
      ((5 : ℚ) ≤ (ballUpdate rotSample 16 ⟨800, 600⟩ ⟨30, 250, 12, 100⟩
          ⟨758, 250, 12, 100⟩ ⟨801, 300, 14, 5, 0, 5, 0⟩).1.speed ∧
        (ballUpdate rotSample 16 ⟨800, 600⟩ ⟨30, 250, 12, 100⟩
          ⟨758, 250, 12, 100⟩ ⟨801, 300, 14, 5, 0, 5, 0⟩).1.speed ≤
            BALL_SPEED_MAX) :=
  ⟨⟨by norm_num, by norm_num [BALL_SPEED_MAX]⟩,
    (ball_speed_monotone_capped rotSample 16 ⟨800, 600⟩ ⟨30, 250, 12, 100⟩
      ⟨758, 250, 12, 100⟩ ⟨801, 300, 14, 5, 0, 5, 0⟩ 0 none 400 300 5
      (by norm_num [BALL_SPEED_MAX]) (by norm_num [BALL_SPEED_MAX])).2.1⟩

/-! ## Bounce angle mapping (claim C2) -/

lemma clamp_eq_self {x : ℚ} (h0 : -1 ≤ x) (h1 : x ≤ 1) :
    max (-1) (min 1 x) = x := by
  rw [min_eq_right h1, max_eq_right h0]

/-- Claim C2: the bounce angle is `60°` times the normalized hit offset
clamped to `[-1, 1]`; a center hit gives `0°`, a hit at the extreme
top/bottom edge of the paddle gives `∓60°`/`±60°`, and the mapping is monotone in the hit
position (strictly so while the offset is inside the clamp range). -/
theorem bounce_angle_linear_clamped (ballCY padCY padH : ℚ) (hh : 0 < padH) :
    bounceAngleDeg ballCY padCY padH
        = max (-1) (min 1 ((ballCY - padCY) / (padH / 2))) * 60 ∧
    bounceAngleDeg padCY padCY padH = 0 ∧
    bounceAngleDeg (padCY - padH / 2) padCY padH = -60 ∧
    bounceAngleDeg (padCY + padH / 2) padCY padH = 60 ∧
    (∀ y1 y2 : ℚ, y1 ≤ y2 →
      bounceAngleDeg y1 padCY padH ≤ bounceAngleDeg y2 padCY padH) ∧
    (∀ y1 y2 : ℚ, padCY - padH / 2 ≤ y1 → y1 < y2 → y2 ≤ padCY + padH / 2 →
      bounceAngleDeg y1 padCY padH < bounceAngleDeg y2 padCY padH) := by
  have hh2 : (0 : ℚ) < padH / 2 := by linarith
  have hne : padH / 2 ≠ 0 := ne_of_gt hh2
  refine ⟨rfl, ?_, ?_, ?_, ?_, ?_⟩
  · unfold bounceAngleDeg
    norm_num
  · unfold bounceAngleDeg
    dsimp only
    rw [show padCY - padH / 2 - padCY = -(padH / 2) by ring, neg_div,
      div_self hne]
    norm_num
  · unfold bounceAngleDeg
    dsimp only
    rw [show padCY + padH / 2 - padCY = padH / 2 by ring, div_self hne]
    norm_num
  · intro y1 y2 hy
    unfold bounceAngleDeg
    dsimp only
    have hAB : (y1 - padCY) / (padH / 2) ≤ (y2 - padCY) / (padH / 2) :=
      (div_le_div_right hh2).mpr (by linarith)
    exact mul_le_mul_of_nonneg_right
      (max_le_max le_rfl (min_le_min le_rfl hAB)) (by norm_num)
  · intro y1 y2 hlo hlt hhi
    unfold bounceAngleDeg
    dsimp only
    have hb1 : -1 ≤ (y1 - padCY) / (padH / 2) := by
      rw [le_div_iff hh2]; linarith
    have hb1' : (y1 - padCY) / (padH / 2) ≤ 1 := by
      rw [div_le_one hh2]; linarith
    have hb2 : -1 ≤ (y2 - padCY) / (padH / 2) := by
      rw [le_div_iff hh2]; linarith
    have hb2' : (y2 - padCY) / (padH / 2) ≤ 1 := by
      rw [div_le_one hh2]; linarith
    rw [clamp_eq_self hb1 hb1', clamp_eq_self hb2 hb2']
    have hAB : (y1 - padCY) / (padH / 2) < (y2 - padCY) / (padH / 2) :=
      (div_lt_div_right hh2).mpr (by linarith)
    linarith

/-- Witness for C2: with the 100-pixel paddle of the game centered at `y = 300`,
a center hit bounces at `0°` and a hit with the center of the ball at the
top edge of the paddle (`y = 250`) bounces at `-60°`. -/
theorem bounce_angle_linear_clamped_witness :
    (0 : ℚ) < 100 ∧ bounceAngleDeg (300 : ℚ) 300 100 = 0 ∧
      bounceAngleDeg (250 : ℚ) 300 100 = -60 := by
  have h := bounce_angle_linear_clamped 325 300 100 (by norm_num)
  refine ⟨by norm_num, h.2.1, ?_⟩
  have h3 := h.2.2.1
  norm_num at h3
  exact h3

/-! ## AI prediction (src/main.py lines 63-98) -/

def Rect.centerx (r : Rect) : ℤ := r.x + r.w / 2

/-- One iteration of the mirroring loop body (lines 90-94): first mirror a
negative value as `-y`, then mirror a value above the height as `2*h - y` —
two sequential `if`s inside the `while`. -/
def reflectStep (hgt y : ℚ) : ℚ :=
  let y1 := if y < 0 then -y else y
  if hgt < y1 then 2 * hgt - y1 else y1

/-- The `while predicted_y < 0 or predicted_y > h` loop (lines 90-94),
expressed with an explicit fuel argument: with fuel `n + 1`, run one body
iteration when the guard holds and recurse.  `reflectFuel` below supplies
enough fuel for the loop to reach its exit condition, and the stability
lemma shows extra fuel never changes the result — together these express
that the unbounded loop of the source terminates with this value. -/
def reflectAux (hgt : ℚ) : ℕ → ℚ → ℚ
  | 0, y => y
  | n + 1, y => if y < 0 ∨ hgt < y then reflectAux hgt n (reflectStep hgt y) else y

/-- Sufficient fuel for the mirroring loop: each iteration either lands in
`[0, hgt]` or shrinks `|y|` by `2 * hgt`. -/
def reflectFuel (hgt y : ℚ) : ℕ := (⌈|y| / (2 * hgt)⌉).toNat + 1

/-- The value the mirroring loop terminates with. -/
def reflect (hgt y : ℚ) : ℚ := reflectAux hgt (reflectFuel hgt y) y

/-- `time_to_reach = (self.rect.left - ball_rect.centerx) / ball_vel.x`
(line 81). -/
def timeToReach (paddleLeft ballCX : ℤ) (velX : ℚ) : ℚ :=
  ((paddleLeft : ℚ) - (ballCX : ℚ)) / velX

/-- `predicted_y = ball_rect.centery + ball_vel.y * time_to_reach`
(line 86). -/
def predictedY (ballCY : ℤ) (velY t : ℚ) : ℚ := (ballCY : ℚ) + velY * t

/-- The value of `predicted_y` at line 86 for a ball approaching the AI
paddle. -/
def predictedImpactY (ballR : Rect) (velY : ℚ) (paddleLeft : ℤ) (velX : ℚ) : ℚ :=
  predictedY ballR.centery velY (timeToReach paddleLeft ballR.centerx velX)

/-- `AIPaddle._predict_target` (lines 73-98).  The uniform jitter draw in
`[-error_margin, error_margin]` is the `jitter` parameter. -/
def predictTarget (jitter : ℚ) (ballR : Rect) (ballVelX ballVelY : ℚ)
    (paddleLeft : ℤ) (bounds : Bounds) : ℚ :=
  if ballVelX ≤ 0 then (bounds.height : ℚ) / 2
  else
    let t := timeToReach paddleLeft ballR.centerx ballVelX
    if t ≤ 0 then (ballR.centery : ℚ)
    else reflect (bounds.height : ℚ) (predictedY ballR.centery ballVelY t) + jitter

lemma reflectAux_of_mem (hgt : ℚ) (n : ℕ) (y : ℚ) (h0 : 0 ≤ y) (h1 : y ≤ hgt) :
    reflectAux hgt n y = y := by
  cases n with
  | zero => rfl
  | succ n =>
    unfold reflectAux
    rw [if_neg]
    push_neg
    exact ⟨h0, h1⟩

lemma reflectStep_abs_arg (hgt y : ℚ) :
    reflectStep hgt y = if hgt < |y| then 2 * hgt - |y| else |y| := by
  unfold reflectStep
  rcases lt_or_le y 0 with h | h
  · rw [if_pos h, abs_of_neg h]
  · rw [if_neg (not_lt.mpr h), abs_of_nonneg h]

lemma reflectStep_mem (hgt y : ℚ) (hy : |y| ≤ 2 * hgt) :
    0 ≤ reflectStep hgt y ∧ reflectStep hgt y ≤ hgt := by
  rw [reflectStep_abs_arg]
  have h0 : 0 ≤ |y| := abs_nonneg y
  split_ifs with h <;> constructor <;> linarith

lemma reflectStep_shrink (hgt y : ℚ) (hh : 0 < hgt) (hy : 2 * hgt < |y|) :
    |reflectStep hgt y| = |y| - 2 * hgt := by
  rw [reflectStep_abs_arg, if_pos (by linarith)]
  rw [abs_of_nonpos (by linarith)]
  ring

lemma reflectAux_mem (hgt : ℚ) (hh : 0 < hgt) :
    ∀ (n : ℕ) (y : ℚ), |y| ≤ 2 * hgt * (n + 1) →
      ∀ m : ℕ, n < m → 0 ≤ reflectAux hgt m y ∧ reflectAux hgt m y ≤ hgt := by
  intro n
  induction n with
  | zero =>
    intro y hy m hm
    obtain ⟨k, rfl⟩ : ∃ k, m = k + 1 := ⟨m - 1, by omega⟩
    by_cases hg : y < 0 ∨ hgt < y
    · unfold reflectAux
      rw [if_pos hg]
      have hstep := reflectStep_mem hgt y (by push_cast at hy; linarith)
      rw [reflectAux_of_mem hgt k _ hstep.1 hstep.2]
      exact hstep
    · unfold reflectAux
      rw [if_neg hg]
      push_neg at hg
      exact hg
  | succ n ih =>
    intro y hy m hm
    obtain ⟨k, rfl⟩ : ∃ k, m = k + 1 := ⟨m - 1, by omega⟩
    by_cases hg : y < 0 ∨ hgt < y
    · unfold reflectAux
      rw [if_pos hg]
      by_cases hbig : |y| ≤ 2 * hgt
      · have hstep := reflectStep_mem hgt y hbig
        rw [reflectAux_of_mem hgt k _ hstep.1 hstep.2]
        exact hstep
      · push_neg at hbig
        apply ih (reflectStep hgt y) _ k (by omega)
        rw [reflectStep_shrink hgt y hh hbig]
        push_cast at hy ⊢
        linarith
    · unfold reflectAux
      rw [if_neg hg]
      push_neg at hg
      exact hg

lemma reflectAux_stable (hgt : ℚ) :
    ∀ (n : ℕ) (y : ℚ) (m : ℕ), n ≤ m →
      0 ≤ reflectAux hgt n y → reflectAux hgt n y ≤ hgt →
      reflectAux hgt m y = reflectAux hgt n y := by
  intro n
  induction n with
  | zero =>
    intro y m _ h0 h1
    exact reflectAux_of_mem hgt m y h0 h1
  | succ n ih =>
    intro y m hm h0 h1
    obtain ⟨k, rfl⟩ : ∃ k, m = k + 1 := ⟨m - 1, by omega⟩
    by_cases hg : y < 0 ∨ hgt < y
    · unfold reflectAux at h0 h1 ⊢
      rw [if_pos hg] at h0 h1
      rw [if_pos hg, if_pos hg]
      exact ih (reflectStep hgt y) k (by omega) h0 h1
    · unfold reflectAux
      rw [if_neg hg, if_neg hg]

lemma abs_le_fuel_bound (hgt y : ℚ) (hh : 0 < hgt) :
    |y| ≤ 2 * hgt * ((((⌈|y| / (2 * hgt)⌉).toNat : ℚ)) + 1) := by
  have h2 : (0 : ℚ) < 2 * hgt := by linarith
  have hc := Int.le_ceil (|y| / (2 * hgt))
  have hcn : ((⌈|y| / (2 * hgt)⌉ : ℤ) : ℚ) ≤ ((⌈|y| / (2 * hgt)⌉.toNat : ℤ) : ℚ) := by
    exact_mod_cast Int.self_le_toNat _
  have : |y| / (2 * hgt) ≤ ((⌈|y| / (2 * hgt)⌉.toNat : ℤ) : ℚ) := le_trans hc hcn
  rw [div_le_iff h2] at this
  push_cast at this ⊢
  nlinarith

lemma reflect_mem (hgt y : ℚ) (hh : 0 < hgt) :
    0 ≤ reflect hgt y ∧ reflect hgt y ≤ hgt := by
  unfold reflect reflectFuel
  exact reflectAux_mem hgt hh (⌈|y| / (2 * hgt)⌉).toNat y
    (by exact_mod_cast abs_le_fuel_bound hgt y hh) _ (Nat.lt_succ_self _)

lemma reflect_stable (hgt y : ℚ) (hh : 0 < hgt) :
    ∀ m : ℕ, reflectFuel hgt y ≤ m → reflectAux hgt m y = reflect hgt y := by
  intro m hm
  have hmem := reflect_mem hgt y hh
  exact reflectAux_stable hgt (reflectFuel hgt y) y m hm hmem.1 hmem.2

/-- Claim C6: when the ball approaches the AI paddle (`ball_vel.x > 0` and
positive time-to-reach) in a playfield of positive height, the
repeated-mirroring loop of `_predict_target` terminates — its fuel-indexed
unfolding is constant from `reflectFuel` on — at a value inside
`[0, bounds.height]`, and for every jitter draw within
`[-error_margin, error_margin]` the returned target differs from that
bounce-reflected prediction by at most `error_margin`. -/
theorem ai_predict_loop_terminates_and_bounded (bounds : Bounds) (ballR : Rect)
    (ballVelX ballVelY : ℚ) (paddleLeft : ℤ) (jitter margin : ℚ)
    (hh : 0 < (bounds.height : ℚ))
    (hvx : 0 < ballVelX)
    (ht : 0 < timeToReach paddleLeft ballR.centerx ballVelX)
    (hj : |jitter| ≤ margin) :
    (∀ m : ℕ, reflectFuel (bounds.height : ℚ)
        (predictedImpactY ballR ballVelY paddleLeft ballVelX) ≤ m →
      reflectAux (bounds.height : ℚ) m
          (predictedImpactY ballR ballVelY paddleLeft ballVelX) =
        reflect (bounds.height : ℚ)
          (predictedImpactY ballR ballVelY paddleLeft ballVelX)) ∧
    (0 ≤ reflect (bounds.height : ℚ)
        (predictedImpactY ballR ballVelY paddleLeft ballVelX) ∧
      reflect (bounds.height : ℚ)
          (predictedImpactY ballR ballVelY paddleLeft ballVelX) ≤
        (bounds.height : ℚ)) ∧
    |predictTarget jitter ballR ballVelX ballVelY paddleLeft bounds -
        reflect (bounds.height : ℚ)
          (predictedImpactY ballR ballVelY paddleLeft ballVelX)| ≤ margin := by
  refine ⟨reflect_stable _ _ hh, reflect_mem _ _ hh, ?_⟩
  unfold predictTarget
  rw [if_neg (not_le.mpr hvx), if_neg (not_le.mpr ht)]
  unfold predictedImpactY
  rw [add_sub_cancel_left]
  exact hj

/-- Witness for C6: the ball at the playfield center moving right and up
toward the AI paddle; with jitter 10 (inside the 18-pixel error margin) the
target stays within 18 pixels of the reflected prediction. -/
theorem ai_predict_loop_terminates_and_bounded_witness :
    ((0 : ℚ) < ((600 : ℤ) : ℚ) ∧ (0 : ℚ) < 5 ∧
        0 < timeToReach 758 (Rect.centerx ⟨393, 293, 14, 14⟩) 5 ∧
        |(10 : ℚ)| ≤ 18) ∧
      |predictTarget 10 ⟨393, 293, 14, 14⟩ 5 3 758 ⟨800, 600⟩ -
          reflect ((600 : ℤ) : ℚ) (predictedImpactY ⟨393, 293, 14, 14⟩ 3 758 5)| ≤ 18 := by
  have ht : 0 < timeToReach 758 (Rect.centerx ⟨393, 293, 14, 14⟩) 5 := by
    norm_num [timeToReach, Rect.centerx]
  exact ⟨⟨by norm_num, by norm_num, ht, by norm_num⟩,
    (ai_predict_loop_terminates_and_bounded ⟨800, 600⟩ ⟨393, 293, 14, 14⟩ 5 3 758
      10 18 (by norm_num) (by norm_num) ht (by norm_num)).2.2⟩

/-! ## Real-valued velocity model

`pygame.Vector2(1, 0).rotate(angle)` is `(cos θ, sin θ)` with
`θ = angle · π / 180` (pygame angles are in degrees; the y-axis orientation
does not matter for any claim below).  These definitions give the exact
real-number semantics of the velocity assignments in `Ball.reset`
(lines 133-141) and `Ball._bounce_off_paddle` (lines 198-205), including the
explicit `normalize()` call. -/

noncomputable def realRot (a : ℝ) : ℝ × ℝ :=
  (Real.cos (a * Real.pi / 180), Real.sin (a * Real.pi / 180))

/-- `pygame.Vector2.normalize`: divide both components by the Euclidean
length. -/
noncomputable def vecNormalize (v : ℝ × ℝ) : ℝ × ℝ :=
  (v.1 / Real.sqrt (v.1 ^ 2 + v.2 ^ 2), v.2 / Real.sqrt (v.1 ^ 2 + v.2 ^ 2))

/-- The Euclidean magnitude of a velocity vector. -/
noncomputable def speedOf (v : ℝ × ℝ) : ℝ := Real.sqrt (v.1 ^ 2 + v.2 ^ 2)

/-- The velocity set by `Ball._bounce_off_paddle` (lines 198-205):
`Vector2(direction, 0).rotate(angle).normalize() * new_speed`, with
`direction = 1 if velocity.x > 0 else -1` and `angle` the clamped linear
bounce angle. -/
noncomputable def bounceNewVelocityR (velX ballCY padCY padH newSpeed : ℝ) : ℝ × ℝ :=
  let angle := bounceAngleDeg ballCY padCY padH
  let direction : ℝ := if 0 < velX then 1 else -1
  let d := (direction * (realRot angle).1, direction * (realRot angle).2)
  let n := vecNormalize d
  (n.1 * newSpeed, n.2 * newSpeed)

/-- The serve direction of `Ball.reset` (lines 133-139): rotate `(1, 0)` by
the drawn angle, then optionally force the horizontal sign (`-abs` when
serving to the left, `abs` when serving to the right). -/
noncomputable def resetDirectionR (angle : ℝ) (toLeft : Option Bool) : ℝ × ℝ :=
  let d := realRot angle
  match toLeft with
  | some true => (-|d.1|, d.2)
  | some false => (|d.1|, d.2)
  | none => d

/-- The velocity set by `Ball.reset` (line 141):
`direction.normalize() * speed`. -/
noncomputable def resetNewVelocityR (angle : ℝ) (toLeft : Option Bool)
    (speed : ℝ) : ℝ × ℝ :=
  let n := vecNormalize (resetDirectionR angle toLeft)
  (n.1 * speed, n.2 * speed)

lemma realRot_sq_one (a : ℝ) :
    (realRot a).1 ^ 2 + (realRot a).2 ^ 2 = 1 := by
  unfold realRot
  exact Real.cos_sq_add_sin_sq _

lemma vecNormalize_of_sq_one {v : ℝ × ℝ} (hv : v.1 ^ 2 + v.2 ^ 2 = 1) :
    vecNormalize v = v := by
  unfold vecNormalize
  rw [hv, Real.sqrt_one, div_one, div_one]

lemma speedOf_scale {v : ℝ × ℝ} (s : ℝ) (hv : v.1 ^ 2 + v.2 ^ 2 = 1)
    (hs : 0 ≤ s) : speedOf (v.1 * s, v.2 * s) = s := by
  unfold speedOf
  rw [show (v.1 * s) ^ 2 + (v.2 * s) ^ 2 = s ^ 2 * (v.1 ^ 2 + v.2 ^ 2) by ring,
    hv, mul_one]
  exact Real.sqrt_sq hs

lemma resetDirectionR_sq_one (a : ℝ) (toLeft : Option Bool) :
    (resetDirectionR a toLeft).1 ^ 2 + (resetDirectionR a toLeft).2 ^ 2 = 1 := by
  have h := realRot_sq_one a
  rcases toLeft with _ | b
  · exact h
  · cases b
    · show |(realRot a).1| ^ 2 + (realRot a).2 ^ 2 = 1
      rw [sq_abs]
      exact h
    · show (-|(realRot a).1|) ^ 2 + (realRot a).2 ^ 2 = 1
      rw [neg_sq, sq_abs]
      exact h

lemma bounceDirection_sq (velX : ℝ) :
    (if 0 < velX then (1 : ℝ) else -1) ^ 2 = 1 := by
  split_ifs <;> norm_num

/-- Claim C3: the Euclidean magnitude of the velocity of the ball equals its
scalar speed at every Active tick — the equality is established by
`Ball.reset` (first conjunct), preserved exactly by a wall reflection, which
only negates the vertical component (second conjunct), and re-established
with the new speed by every paddle bounce (third conjunct). -/
theorem velocity_magnitude_matches_speed
    (a : ℝ) (toLeft : Option Bool) (s : ℝ) (hs : 0 ≤ s)
    (vx vy sp : ℝ) (hw : speedOf (vx, vy) = sp)
    (velX ballCY padCY padH ns : ℝ) (hns : 0 ≤ ns) :
    speedOf (resetNewVelocityR a toLeft s) = s ∧
    speedOf (vx, -vy) = sp ∧
    speedOf (bounceNewVelocityR velX ballCY padCY padH ns) = ns := by
  refine ⟨?_, ?_, ?_⟩
  · unfold resetNewVelocityR
    rw [vecNormalize_of_sq_one (resetDirectionR_sq_one a toLeft)]
    exact speedOf_scale s (resetDirectionR_sq_one a toLeft) hs
  · unfold speedOf at hw ⊢
    dsimp only at hw ⊢
    rw [neg_sq]
    exact hw
  · unfold bounceNewVelocityR
    dsimp only
    have hd : ((if 0 < velX then (1:ℝ) else -1) * (realRot (bounceAngleDeg ballCY padCY padH)).1) ^ 2 +
        ((if 0 < velX then (1:ℝ) else -1) * (realRot (bounceAngleDeg ballCY padCY padH)).2) ^ 2 = 1 := by
      rw [mul_pow, mul_pow, ← mul_add, bounceDirection_sq,
        realRot_sq_one, one_mul]
    rw [vecNormalize_of_sq_one hd]
    exact speedOf_scale ns hd hns

/-- Witness for C3: a serve at angle 0 with speed 5 has magnitude 5; the
velocity `(3, 4)` has magnitude 5 and keeps it across a wall reflection; a
left-paddle bounce at the paddle center with new speed 5 has magnitude 5. -/
theorem velocity_magnitude_matches_speed_witness :
    ((0 : ℝ) ≤ 5 ∧ speedOf (3, 4) = 5) ∧
      (speedOf (resetNewVelocityR 0 none 5) = 5 ∧
        speedOf (3, -4) = 5 ∧
        speedOf (bounceNewVelocityR (-5) 300 300 100 5) = 5) := by
  have h34 : speedOf ((3 : ℝ), (4 : ℝ)) = 5 := by
    unfold speedOf
    rw [show ((3:ℝ), (4:ℝ)).1 ^ 2 + ((3:ℝ), (4:ℝ)).2 ^ 2 = 5 ^ 2 by norm_num]
    exact Real.sqrt_sq (by norm_num)
  exact ⟨⟨by norm_num, h34⟩,
    velocity_magnitude_matches_speed 0 none 5 (by norm_num) 3 4 5 h34
      (-5) 300 300 100 5 (by norm_num)⟩

/-! ## The paddle-bounce direction bug (claim C1)

Lines 179-182 reach `_bounce_off_paddle(left)` only when `velocity.x < 0`
and `_bounce_off_paddle(right)` only when `velocity.x > 0`.  Inside the
bounce, `direction = 1 if self.velocity.x > 0 else -1` (line 200) therefore
reproduces the incoming horizontal sign instead of flipping it: after
hitting the left paddle the new `velocity.x = -cos(angle) * speed < 0`, i.e.
the ball keeps moving toward the paddle it just hit, contrary to the spec
sentence "signed to continue traveling away from the paddle that was hit". -/

/-- Claim C1 (refuted — code bug): a left-paddle bounce (incoming
`velocity.x = -5 < 0`, center hit, new speed `5.25`) produces a velocity
whose horizontal component is still negative (it equals `-5.25`), not
positive as the spec requires. -/
theorem left_paddle_bounce_keeps_negative_x :
    (bounceNewVelocityR (-5) 300 300 100 (21/4)).1 < 0 := by
  have hang : bounceAngleDeg (300 : ℝ) 300 100 = 0 := by
    unfold bounceAngleDeg
    norm_num
  unfold bounceNewVelocityR
  rw [hang]
  unfold realRot vecNormalize
  norm_num [Real.cos_zero, Real.sin_zero]

/-! ## Scoring and serve direction (claim C5) -/

lemma wallBounce_rectX (bounds : Bounds) (b : Ball) :
    (wallBounce bounds b).rectX = b.rectX := by
  unfold wallBounce
  split_ifs <;> rfl

lemma wallBounce_size (bounds : Bounds) (b : Ball) :
    (wallBounce bounds b).size = b.size := by
  unfold wallBounce
  split_ifs <;> rfl

lemma abs_cos_pos_of_serve_angle {a : ℝ}
    (ha : a ∈ Set.Icc (-25 : ℝ) 25 ∪ Set.Icc (155 : ℝ) 205) :
    0 < |Real.cos (a * Real.pi / 180)| := by
  have hπ := Real.pi_pos
  rcases ha with ⟨h1, h2⟩ | ⟨h1, h2⟩
  · refine abs_pos.mpr (ne_of_gt (Real.cos_pos_of_mem_Ioo ⟨?_, ?_⟩))
    · nlinarith
    · nlinarith
  · refine abs_pos.mpr (ne_of_lt (Real.cos_neg_of_pi_div_two_lt_of_lt ?_ ?_))
    · nlinarith
    · nlinarith

/-- Claim C5 (amended): an Active ball past the right boundary moving right
stays past the boundary after the move, so `Ball.update` returns "left
scores" (`some 0`); `Game.update` then serves with `to_left = (scored == 1)
= False`, and for every admissible serve-angle draw the reset velocity has
`velocity.x > 0` — the serve travels toward the right (conceding) side.
The final clause of the claim, `velocity.x < 0`, is refuted by the counterexample
below. -/
theorem right_boundary_score_conceder_receives
    (rot : ℚ → ℚ × ℚ) (dtMs : ℚ) (bounds : Bounds) (leftP rightP : Rect)
    (b : Ball) (a s : ℝ)
    (hcd : b.serveCooldown ≤ 0) (hx : bounds.width < b.rectX)
    (hvx : 0 < b.velX) (hdt : 0 ≤ dtMs) (hw : 0 ≤ bounds.width)
    (hsz : 0 ≤ b.size)
    (ha : a ∈ Set.Icc (-25 : ℝ) 25 ∪ Set.Icc (155 : ℝ) 205) (hs : 0 < s) :
    (ballUpdate rot dtMs bounds leftP rightP b).2 = some 0 ∧
    serveToLeft 0 = false ∧
    0 < (resetNewVelocityR a (some false) s).1 := by
  refine ⟨?_, rfl, ?_⟩
  · have hk : 0 ≤ pyInt (b.velX * (dtMs / (1000 / FPS))) := by
      unfold pyInt
      have hq : 0 ≤ b.velX * (dtMs / (1000 / FPS)) := by
        apply mul_nonneg hvx.le
        apply div_nonneg hdt
        norm_num [FPS]
      rw [if_pos hq]
      exact Int.floor_nonneg.mpr hq
    have hx2 : bounds.width < (wallBounce bounds (ballMove dtMs b)).rectX := by
      rw [wallBounce_rectX]
      unfold ballMove
      dsimp only
      omega
    have hsz2 : 0 ≤ (wallBounce bounds (ballMove dtMs b)).size := by
      rw [wallBounce_size]
      unfold ballMove
      exact hsz
    have hsc : scoreCheck bounds (wallBounce bounds (ballMove dtMs b)) = some 0 := by
      unfold scoreCheck
      rw [if_neg (by omega), if_pos hx2]
    unfold ballUpdate
    rw [if_neg (not_lt.mpr hcd)]
    dsimp only
    rw [hsc]
  · unfold resetNewVelocityR
    rw [vecNormalize_of_sq_one (resetDirectionR_sq_one a (some false))]
    dsimp only
    have hfst : (resetDirectionR a (some false)).1 = |Real.cos (a * Real.pi / 180)| := rfl
    rw [hfst]
    exact mul_pos (abs_cos_pos_of_serve_angle ha) hs

/-- Counterexample to claim C5 as stated: with the ball at
`x = bounds.width + 1 = 801` moving right while Active, the update returns
"left scores", the serve goes `to_left = False`, and the subsequent reset at
the admissible draw `angle = 0` sets `velocity.x = 5 > 0` — not
`velocity.x < 0` as the claim asserts. -/
theorem right_boundary_serve_sign_counterexample :
    (ballUpdate rotSample 16 ⟨800, 600⟩ ⟨30, 250, 12, 100⟩ ⟨758, 250, 12, 100⟩
        ⟨801, 300, 14, 5, 0, 5, 0⟩).2 = some 0 ∧
    serveToLeft 0 = false ∧
    ((-25 : ℝ) ≤ 0 ∧ (0 : ℝ) ≤ 25) ∧
    (resetNewVelocityR 0 (some false) 5).1 = 5 := by
  refine ⟨?_, rfl, ⟨by norm_num, by norm_num⟩, ?_⟩
  · norm_num [ballUpdate, ballMove, wallBounce, scoreCheck, pyInt, FPS]
  · unfold resetNewVelocityR resetDirectionR realRot vecNormalize
    norm_num [Real.cos_zero, Real.sin_zero]

/-- Witness for C5 (amended): the concrete scenario of the claim — ball at
`x = 801` in the 800-wide playfield, `velocity.x = 5 > 0`, serve-angle draw
0 — scores for the left side and re-serves with positive horizontal
velocity. -/
theorem right_boundary_score_conceder_receives_witness :
    ((0 : ℤ) ≤ 0 ∧ (800 : ℤ) < 801 ∧ (0 : ℚ) < 5 ∧ (0 : ℝ) < 5) ∧
      ((ballUpdate rotSample 16 ⟨800, 600⟩ ⟨30, 250, 12, 100⟩
          ⟨758, 250, 12, 100⟩ ⟨801, 300, 14, 5, 0, 5, 0⟩).2 = some 0 ∧
        serveToLeft 0 = false ∧
        0 < (resetNewVelocityR 0 (some false) 5).1) :=
  ⟨⟨le_refl 0, by decide, by norm_num, by norm_num⟩,
    right_boundary_score_conceder_receives rotSample 16 ⟨800, 600⟩
      ⟨30, 250, 12, 100⟩ ⟨758, 250, 12, 100⟩ ⟨801, 300, 14, 5, 0, 5, 0⟩ 0 5
      (by decide) (by decide) (by norm_num) (by norm_num) (by decide)
      (by decide) (Or.inl ⟨by norm_num, by norm_num⟩) (by norm_num)⟩

/-! ## Serve cones (claim C9) -/

/-- Claim C9 (amended): every serve angle drawn by `Ball.reset` lies in one
of the two shallow cones `[-25°, 25°]` or `[155°, 205°]` — both centered on
pure horizontal, not biased away from it — so a purely horizontal serve is
possible: the admissible draw `angle = 0` yields a velocity with zero
vertical component. -/
theorem serve_cones_centered_on_horizontal (a1 a2 : ℚ) (pick : Bool)
    (h1 : a1 ∈ Set.Icc (-25 : ℚ) 25) (h2 : a2 ∈ Set.Icc (155 : ℚ) 205) :
    serveAngle a1 a2 pick ∈ Set.Icc (-25 : ℚ) 25 ∪ Set.Icc (155 : ℚ) 205 ∧
    (resetNewVelocityR 0 none 5).2 = 0 := by
  constructor
  · unfold serveAngle
    split_ifs
    · exact Or.inl h1
    · exact Or.inr h2
  · unfold resetNewVelocityR resetDirectionR realRot vecNormalize
    norm_num [Real.cos_zero, Real.sin_zero]

/-- Counterexample to claim C9 as stated: `0` is an admissible draw of
`random.uniform(-25, 25)` — the first serve cone is centered on pure
horizontal rather than biased away from it — and the serve it produces has
vertical velocity component exactly `0`. -/
theorem serve_horizontal_possible_counterexample :
    ((-25 : ℚ) ≤ 0 ∧ (0 : ℚ) ≤ 25) ∧ (resetNewVelocityR 0 none 5).2 = 0 := by
  refine ⟨⟨by norm_num, by norm_num⟩, ?_⟩
  unfold resetNewVelocityR resetDirectionR realRot vecNormalize
  norm_num [Real.cos_zero, Real.sin_zero]

/-- Witness for C9 (amended): draws `a1 = 0`, `a2 = 180`, first choice
picked. -/
theorem serve_cones_centered_on_horizontal_witness :
    (((-25 : ℚ) ≤ 0 ∧ (0 : ℚ) ≤ 25) ∧ ((155 : ℚ) ≤ 180 ∧ (180 : ℚ) ≤ 205)) ∧
      (serveAngle 0 180 true ∈ Set.Icc (-25 : ℚ) 25 ∪ Set.Icc (155 : ℚ) 205 ∧
        (resetNewVelocityR 0 none 5).2 = 0) :=
  ⟨⟨⟨by norm_num, by norm_num⟩, ⟨by norm_num, by norm_num⟩⟩,
    serve_cones_centered_on_horizontal 0 180 true
      ⟨by norm_num, by norm_num⟩ ⟨by norm_num, by norm_num⟩⟩

end Pong
